import Mathlib

/-!
Verification development for the Auto_Neutron route-tracking core.

The definitions below are a shallow embedding of the Python sources:
`workers.py` (route-progress consumer `AhkWorker.main`, fuel-status consumer
`FuelAlert.main`, Spansh poll backoff `SpanshPlot.plot`),
`auto_neutron/route_plots.py` (`ExactPlotRow`, `NeutronPlotRow`,
`_spansh_job_callback`) and `auto_neutron/utils/network.py`
(`json_from_network_req`).

Modelling conventions:
* Python floats are modelled as exact rationals (`ℚ`); the claims involved
  do not hinge on binary floating-point rounding.
* Python ints are `Int`/`Nat`.
* Raising code is modelled in `Except PyErr`; an uncaught exception is an
  `Except.error` value propagating out of the modelled function.
* `str.casefold` and `str.lower` are both modelled as ASCII lowercasing,
  which agrees with them on the system-name strings involved.
-/

namespace AutoNeutron

/-- Python exception kinds raised by the modelled code paths. -/
inductive PyErr
  | jsonDecodeError
  | keyError (key : String)
  | indexError
  | typeError
  | valueError
  | attributeError
deriving DecidableEq, Repr

/-- JSON values of the shapes consumed by the modelled code paths
(strings, numbers, objects). -/
inductive JVal
  | str (s : String)
  | num (q : ℚ)
  | obj (fields : List (String × JVal))

/-- A raw line handed to a consumer by the log tailer: empty, not valid
JSON, or a decoded JSON value. -/
inductive RawLine
  | empty
  | malformed
  | ok (v : JVal)

/-- Key lookup in a JSON object's field list (Python dict lookup). -/
def jLookup : List (String × JVal) → String → Option JVal
  | [], _ => none
  | (k, v) :: rest, key => if k = key then some v else jLookup rest key

/-- Python `loaded[key]` on a decoded JSON value: `KeyError` on a missing
key, `TypeError` when subscripting a non-object. -/
def getItem (v : JVal) (key : String) : Except PyErr JVal :=
  match v with
  | .obj fields =>
    match jLookup fields key with
    | some x => .ok x
    | none => .error (.keyError key)
  | _ => .error .typeError

/-- Python `json.loads(line)`: raises `json.JSONDecodeError` on an empty or
malformed line. -/
def jsonLoads : RawLine → Except PyErr JVal
  | .empty => .error .jsonDecodeError
  | .malformed => .error .jsonDecodeError
  | .ok v => .ok v

/-- Python `v == "literal"` for a JSON value `v`: true only for an equal
string. -/
def pyEqStr (v : JVal) (s : String) : Bool :=
  match v with
  | .str t => t == s
  | _ => false

/-- Extract a Python string; calling a `str` method (such as `.casefold()`)
on a non-string raises `AttributeError`. -/
def asStr (v : JVal) : Except PyErr String :=
  match v with
  | .str s => .ok s
  | _ => .error .attributeError

/-- Extract a Python number for an order comparison with a float;
comparing a non-number raises `TypeError`. -/
def asNum (v : JVal) : Except PyErr ℚ :=
  match v with
  | .num q => .ok q
  | _ => .error .typeError

/-- Extract a Python int for an `f"{x:b}"` format; a float or other value
raises `ValueError`. -/
def asIntForBinFormat (v : JVal) : Except PyErr Int :=
  match v with
  | .num q => if q.den = 1 then .ok q.num else .error .valueError
  | _ => .error .valueError

/-- ASCII lowercasing of a string (structural model of `str.lower`, and of
`str.casefold`, which agrees on ASCII system names). -/
def lowerString (s : String) : String := ⟨s.data.map Char.toLower⟩

/-- Python `str.casefold` as used in `AhkWorker` (workers.py lines 20, 68). -/
def casefold (s : String) : String := lowerString s

/-- Python `str.lower` as used in the row `__eq__` methods
(route_plots.py lines 64, 102). -/
def pyLower (s : String) : String := lowerString s

/-- Fuel-bounded little-endian binary digit extraction (helper for
`binDigitsLE`; structural on the fuel so the kernel can evaluate it). -/
def binDigitsLEAux (fuel n : ℕ) : List Char :=
  match fuel with
  | 0 => []
  | fuel + 1 =>
    if n = 0 then [] else (if n % 2 = 1 then '1' else '0') :: binDigitsLEAux fuel (n / 2)

/-- Little-endian binary digits of `n` (empty for `0`). -/
def binDigitsLE (n : ℕ) : List Char := binDigitsLEAux n n

/-- Python `f"{n:b}"` for a natural number: most-significant digit first,
`"0"` for zero. -/
def pyBinNat (n : ℕ) : List Char :=
  if n = 0 then ['0'] else (binDigitsLE n).reverse

/-- Python `f"{i:b}"` for an int: a minus sign precedes the digits of the
absolute value when `i` is negative. -/
def pyBinInt (i : ℤ) : List Char :=
  if i < 0 then '-' :: pyBinNat i.natAbs else pyBinNat i.natAbs

/-- Python negative string indexing `s[-k]` (for `k ≥ 1`): the `k`-th
character from the end, `IndexError` when out of range. -/
def pyNegIndex (l : List Char) (k : ℕ) : Except PyErr Char :=
  if h : 1 ≤ k ∧ k ≤ l.length then .ok (l.get ⟨l.length - k, by omega⟩)
  else .error .indexError

lemma binDigitsLEAux_zero (fuel : ℕ) : binDigitsLEAux fuel 0 = [] := by
  cases fuel <;> simp [binDigitsLEAux]

lemma binDigitsLEAux_congr :
    ∀ f₁ f₂ n : ℕ, n ≤ f₁ → n ≤ f₂ → binDigitsLEAux f₁ n = binDigitsLEAux f₂ n := by
  intro f₁
  induction f₁ with
  | zero =>
    intro f₂ n h₁ _
    interval_cases n
    simp [binDigitsLEAux_zero]
  | succ f ih =>
    intro f₂ n h₁ h₂
    rcases Nat.eq_zero_or_pos n with hn | hn
    · subst hn; simp [binDigitsLEAux_zero]
    · obtain ⟨f₂', rfl⟩ : ∃ f₂', f₂ = f₂' + 1 := ⟨f₂ - 1, by omega⟩
      have hne : n ≠ 0 := by omega
      simp only [binDigitsLEAux, hne, if_false]
      have hd : n / 2 ≤ f := by
        have := Nat.div_lt_self hn one_lt_two
        omega
      have hd₂ : n / 2 ≤ f₂' := by
        have := Nat.div_lt_self hn one_lt_two
        omega
      rw [ih f₂' (n / 2) hd hd₂]

/-- Unfolding equation for `binDigitsLE`. -/
lemma binDigitsLE_eq (n : ℕ) :
    binDigitsLE n =
      if n = 0 then [] else (if n % 2 = 1 then '1' else '0') :: binDigitsLE (n / 2) := by
  rcases Nat.eq_zero_or_pos n with hn | hn
  · subst hn; simp [binDigitsLE, binDigitsLEAux_zero]
  · have hne : n ≠ 0 := by omega
    obtain ⟨m, rfl⟩ : ∃ m, n = m + 1 := ⟨n - 1, by omega⟩
    simp only [binDigitsLE, binDigitsLEAux, hne, if_false]
    congr 1
    apply binDigitsLEAux_congr
    · have := Nat.div_lt_self hn one_lt_two
      omega
    · exact le_refl _

lemma binDigitsLE_length_of_two_pow_le :
    ∀ k n : ℕ, 2 ^ k ≤ n → k < (binDigitsLE n).length := by
  intro k
  induction k with
  | zero =>
    intro n h
    have hne : n ≠ 0 := by simpa using Nat.one_le_iff_ne_zero.mp h
    rw [binDigitsLE_eq, if_neg hne]
    simp only [List.length_cons]
    omega
  | succ k ih =>
    intro n h
    have hne : n ≠ 0 := by
      have : (0 : ℕ) < 2 ^ (k + 1) := Nat.pos_pow_of_pos _ (by norm_num)
      omega
    have hdiv : 2 ^ k ≤ n / 2 := by
      rw [Nat.le_div_iff_mul_le (by norm_num)]
      calc 2 ^ k * 2 = 2 ^ (k + 1) := by ring
        _ ≤ n := h
    have := ih (n / 2) hdiv
    rw [binDigitsLE_eq, if_neg hne]
    simp only [List.length_cons]
    omega

lemma binDigitsLE_length_le_of_lt_two_pow :
    ∀ k n : ℕ, n < 2 ^ k → (binDigitsLE n).length ≤ k := by
  intro k
  induction k with
  | zero =>
    intro n h
    interval_cases n
    simp [binDigitsLE, binDigitsLEAux]
  | succ k ih =>
    intro n h
    rcases Nat.eq_zero_or_pos n with hn | hn
    · subst hn
      simp [binDigitsLE, binDigitsLEAux_zero]
    · have hne : n ≠ 0 := by omega
      have hdiv : n / 2 < 2 ^ k := by
        rw [Nat.div_lt_iff_lt_mul (by norm_num)]
        calc n < 2 ^ (k + 1) := h
          _ = 2 ^ k * 2 := by ring
      have := ih (n / 2) hdiv
      rw [binDigitsLE_eq, if_neg hne]
      simp only [List.length_cons]
      omega

lemma binDigitsLE_get :
    ∀ k n : ℕ, ∀ h : k < (binDigitsLE n).length,
      (binDigitsLE n).get ⟨k, h⟩ = if n.testBit k then '1' else '0' := by
  intro k
  induction k with
  | zero =>
    intro n h
    have hne : n ≠ 0 := by
      intro hc
      subst hc
      simp [binDigitsLE, binDigitsLEAux_zero] at h
    have hcons : binDigitsLE n = (if n % 2 = 1 then '1' else '0') :: binDigitsLE (n / 2) := by
      rw [binDigitsLE_eq, if_neg hne]
    rw [List.get_eq_getElem]
    simp only [hcons, List.getElem_cons_zero]
    rw [Nat.testBit_zero]
    rcases Nat.mod_two_eq_zero_or_one n with hm | hm <;> simp [hm]
  | succ k ih =>
    intro n h
    have hne : n ≠ 0 := by
      intro hc
      subst hc
      simp [binDigitsLE, binDigitsLEAux_zero] at h
    have hcons : binDigitsLE n = (if n % 2 = 1 then '1' else '0') :: binDigitsLE (n / 2) := by
      rw [binDigitsLE_eq, if_neg hne]
    have h' : k < (binDigitsLE (n / 2)).length := by
      rw [hcons] at h
      simp only [List.length_cons] at h
      omega
    rw [List.get_eq_getElem]
    simp only [hcons, List.getElem_cons_succ]
    rw [Nat.testBit_succ]
    have := ih (n / 2) h'
    rw [List.get_eq_getElem] at this
    exact this

/-- Python `s[-(k+1)]` on a reversed list reads position `k` of the
original list. -/
lemma pyNegIndex_reverse (l : List Char) (k : ℕ) (h : k < l.length) :
    pyNegIndex l.reverse (k + 1) = .ok (l.get ⟨k, h⟩) := by
  unfold pyNegIndex
  rw [dif_pos ⟨by omega, by rw [List.length_reverse]; omega⟩]
  congr 1
  rw [List.get_eq_getElem, List.get_eq_getElem, List.getElem_reverse]
  have he : l.length - 1 - (l.reverse.length - (k + 1)) = k := by
    rw [List.length_reverse]
    omega
  simp only [he]

lemma pyNegIndex_err_of_length_lt (l : List Char) (k : ℕ) (h : l.length < k) :
    pyNegIndex l k = .error .indexError := by
  unfold pyNegIndex
  rw [dif_neg]
  omega

/-- For `2 ^ k ≤ n`, Python `f"{n:b}"[-(k+1)]` is in range and reads bit
`k` of `n`. -/
lemma pyNegIndex_pyBinNat_ok (n k : ℕ) (h : 2 ^ k ≤ n) :
    pyNegIndex (pyBinNat n) (k + 1) = .ok (if n.testBit k then '1' else '0') := by
  have hne : n ≠ 0 := by
    have : (0 : ℕ) < 2 ^ k := Nat.pos_pow_of_pos _ (by norm_num)
    omega
  have hlen : k < (binDigitsLE n).length := binDigitsLE_length_of_two_pow_le k n h
  have hbin : pyBinNat n = (binDigitsLE n).reverse := by
    unfold pyBinNat
    rw [if_neg hne]
  rw [hbin, pyNegIndex_reverse _ _ hlen, binDigitsLE_get k n hlen]

/-- For `n < 2 ^ k` (with `k ≥ 1`), Python `f"{n:b}"[-(k+1)]` raises
`IndexError`: the binary string is too short. -/
lemma pyNegIndex_pyBinNat_err (n k : ℕ) (h : n < 2 ^ k) (hk : 1 ≤ k) :
    pyNegIndex (pyBinNat n) (k + 1) = .error .indexError := by
  have hlen : (binDigitsLE n).length ≤ k := binDigitsLE_length_le_of_lt_two_pow k n h
  rcases Nat.eq_zero_or_pos n with hn | hn
  · subst hn
    apply pyNegIndex_err_of_length_lt
    simp only [pyBinNat, if_true, List.length_singleton]
    omega
  · have hne : n ≠ 0 := by omega
    apply pyNegIndex_err_of_length_lt
    simp only [pyBinNat, if_neg hne, List.length_reverse]
    omega

/-! Row dataclasses and the fixed-column row exchange format
(route_plots.py lines 52-114). -/

/-- One cell of the row exchange format: the encoder `to_csv` emits a
mixture of strings, floats and ints. -/
inductive CsvCell
  | s (v : String)
  | q (v : ℚ)
  | n (v : ℤ)
deriving DecidableEq, Repr

/-- Python `round(x, 2)` on the modelled rationals. CPython resolves exact
representation ties half-to-even; the claims do not exercise tie values. -/
def round2 (x : ℚ) : ℚ := ((round (x * 100) : ℤ) : ℚ) / 100

/-- Python `row[i]` for a list: `IndexError` out of range. -/
def pyListGet (row : List CsvCell) (i : ℕ) : Except PyErr CsvCell :=
  match row.get? i with
  | some c => .ok c
  | none => .error .indexError

/-- Python `float(cell)`: numbers pass through; parsing of string cells is
not exercised by the encode/decode round trip and is modelled as a
`ValueError`. -/
def pyFloat : CsvCell → Except PyErr ℚ
  | .q v => .ok v
  | .n v => .ok (v : ℚ)
  | .s _ => .error .valueError

/-- Python `int(cell)`: ints pass through, floats truncate toward zero;
string parsing is not exercised by the round trip. -/
def pyIntCell : CsvCell → Except PyErr ℤ
  | .n v => .ok v
  | .q v => .ok (v.num / (v.den : ℤ))
  | .s _ => .error .valueError

/-- Python `cell[0]` as in `row[5][0]`: the first character of a string
cell, `IndexError` on an empty string, `TypeError` on a non-string. -/
def cellIdxZero : CsvCell → Except PyErr Char
  | .s v =>
    match v.data with
    | [] => .error .indexError
    | c :: _ => .ok c
  | _ => .error .typeError

/-- One row entry of an exact plot (route_plots.py lines 52-88). -/
structure ExactPlotRow where
  system : String
  dist : ℚ
  dist_rem : ℚ
  refuel : Bool
  neutron_star : Bool
deriving DecidableEq, Repr

/-- `ExactPlotRow.to_csv` (route_plots.py lines 78-88). Lines 86 and 87 of
the source both emit `self.refuel`; the `neutron_star` field is never
written. -/
def ExactPlotRow.to_csv (r : ExactPlotRow) : List CsvCell :=
  [.s r.system, .q r.dist, .q r.dist_rem, .s "", .s "",
   .s (if r.refuel then "Yes" else "No"),
   .s (if r.refuel then "Yes" else "No")]

/-- `ExactPlotRow.from_csv_row` (route_plots.py lines 67-76): the first
column is the system name, columns 1 and 2 are distances rounded to two
decimals, columns 5 and 6 decode flags by their first character. -/
def ExactPlotRow.from_csv_row (row : List CsvCell) : Except PyErr ExactPlotRow := do
  let c0 ← pyListGet row 0
  let system ←
    match c0 with
    | .s v => Except.ok v
    | _ => Except.error PyErr.typeError
  let d1 ← pyFloat (← pyListGet row 1)
  let d2 ← pyFloat (← pyListGet row 2)
  let c5 ← cellIdxZero (← pyListGet row 5)
  let c6 ← cellIdxZero (← pyListGet row 6)
  pure ⟨system, round2 d1, round2 d2, c5 == 'Y', c6 == 'Y'⟩

/-- `ExactPlotRow.__eq__` with a string operand (route_plots.py lines
62-65): case-insensitive comparison of system names via `str.lower`. -/
def ExactPlotRow.eq_str (r : ExactPlotRow) (other : String) : Bool :=
  pyLower r.system == pyLower other

/-- One row entry of a neutron plot (route_plots.py lines 91-114). -/
structure NeutronPlotRow where
  system : String
  dist_to_arrival : ℚ
  dist_rem : ℚ
  jumps : ℤ
deriving DecidableEq, Repr

/-- `NeutronPlotRow.to_csv` (route_plots.py lines 112-114). -/
def NeutronPlotRow.to_csv (r : NeutronPlotRow) : List CsvCell :=
  [.s r.system, .q r.dist_to_arrival, .q r.dist_rem, .s "", .n r.jumps]

/-- `NeutronPlotRow.from_csv_row` (route_plots.py lines 105-110). -/
def NeutronPlotRow.from_csv_row (row : List CsvCell) : Except PyErr NeutronPlotRow := do
  let c0 ← pyListGet row 0
  let system ←
    match c0 with
    | .s v => Except.ok v
    | _ => Except.error PyErr.typeError
  let d1 ← pyFloat (← pyListGet row 1)
  let d2 ← pyFloat (← pyListGet row 2)
  let j ← pyIntCell (← pyListGet row 4)
  pure ⟨system, round2 d1, round2 d2, j⟩

/-- `NeutronPlotRow.__eq__` with a string operand (route_plots.py lines
100-103). -/
def NeutronPlotRow.eq_str (r : NeutronPlotRow) (other : String) : Bool :=
  pyLower r.system == pyLower other

/-! The route-progress consumer `AhkWorker.main` (workers.py lines 46-87). -/

/-- Signals emitted by `AhkWorker`; payloads are reduced to the index. -/
inductive AhkSignal
  | sys_signal (index : ℕ)
  | route_finished_signal
  | game_shut_signal (index : ℕ)
deriving DecidableEq, Repr

/-- Occurrences of the route-complete notification in an emission list. -/
def countRouteFinished : List AhkSignal → ℕ
  | [] => 0
  | .route_finished_signal :: rest => countRouteFinished rest + 1
  | _ :: rest => countRouteFinished rest

/-- The jump-event index transition of workers.py lines 67-69: a
case-insensitive membership test against `systems[list_index:]` guards an
assignment of `systems.index(...) + 1`, where Python's `list.index`
searches from position 0. -/
def fsdJumpStep (systems : List String) (list_index : ℕ) (star_system : String) : ℕ :=
  if casefold star_system ∈ systems.drop list_index then
    systems.indexOf (casefold star_system) + 1
  else list_index

/-- Processing of one tailed line by `AhkWorker.main` (workers.py lines
65-87): JSON decode, event dispatch, the jump transition of lines 67-69,
the completion check of line 71, and the shutdown branch. The `Bool`
result records whether the loop `break`s. External side effects
(clipboard, AHK process) are outside the model; the emitted signals model
the notifications. -/
def ahkLineStep (systems : List String) (list_index : ℕ) (line : RawLine) :
    Except PyErr (ℕ × List AhkSignal × Bool) :=
  match jsonLoads line with
  | .error e => .error e
  | .ok loaded =>
    match getItem loaded "event" with
    | .error e => .error e
    | .ok ev =>
      if pyEqStr ev "FSDJump" then
        match getItem loaded "StarSystem" with
        | .error e => .error e
        | .ok sv =>
          match asStr sv with
          | .error e => .error e
          | .ok ss =>
            if casefold ss ∈ systems.drop list_index then
              if systems.indexOf (casefold ss) + 1 = systems.length then
                .ok (systems.indexOf (casefold ss) + 1, [.route_finished_signal], true)
              else
                .ok (systems.indexOf (casefold ss) + 1,
                  [.sys_signal (systems.indexOf (casefold ss) + 1)], false)
            else
              .ok (list_index, [], false)
      else if pyEqStr ev "Loadout" then
        .ok (list_index, [], false)
      else if pyEqStr ev "Shutdown" then
        .ok (list_index, [.game_shut_signal list_index], true)
      else
        .ok (list_index, [], false)

/-- The tailing loop of `AhkWorker.main` over a finite prefix of lines:
threads the index, concatenates emissions, stops on `break`, and
propagates uncaught exceptions. -/
def ahkMainLoop (systems : List String) (list_index : ℕ) :
    List RawLine → Except PyErr (ℕ × List AhkSignal)
  | [] => .ok (list_index, [])
  | line :: rest =>
    match ahkLineStep systems list_index line with
    | .error e => .error e
    | .ok (i, sigs, brk) =>
      if brk then .ok (i, sigs)
      else
        match ahkMainLoop systems i rest with
        | .error e => .error e
        | .ok (iF, more) => .ok (iF, sigs ++ more)

/-- A well-formed FSDJump journal line carrying a star-system name. -/
def mkJump (name : String) : JVal :=
  .obj [("event", .str "FSDJump"), ("StarSystem", .str name)]

/-! The fuel-status consumer `FuelAlert.main` (workers.py lines 164-216). -/

/-- `FuelAlert.set_jump_fuel` (workers.py lines 202-203). -/
def jump_fuel (max_fuel modifier : ℚ) : ℚ := max_fuel * modifier / 100

/-- The body of the `try` block of `FuelAlert.main` (workers.py lines
187-198) for one decoded snapshot: field extraction, the threshold and
status-bit condition with Python short-circuit order, and the `hold`
update. Result is `(new hold, alert fired)`. -/
def fuelInner (jf : ℚ) (alertFlag hold : Bool) (loaded : JVal) : Except PyErr (Bool × Bool) :=
  match getItem loaded "Fuel" with
  | .error e => .error e
  | .ok fuelObj =>
    match getItem fuelObj "FuelMain" with
    | .error e => .error e
    | .ok fv =>
      match asNum fv with
      | .error e => .error e
      | .ok fuelMain =>
        if fuelMain < jf then
          if hold then .ok (hold, false)
          else
            match getItem loaded "Flags" with
            | .error e => .error e
            | .ok flv =>
              match asIntForBinFormat flv with
              | .error e => .error e
              | .ok flags =>
                match pyNegIndex (pyBinInt flags) 19 with
                | .error e => .error e
                | .ok c18 =>
                  if c18 = '1' then
                    match pyNegIndex (pyBinInt flags) 5 with
                    | .error e => .error e
                    | .ok c4 =>
                      if c4 = '1' then
                        if alertFlag then .ok (true, true)
                        else .ok (hold, false)
                      else .ok (hold, false)
                  else .ok (hold, false)
        else if jf < fuelMain then .ok (false, false)
        else .ok (hold, false)

/-- Processing of one tailed line by `FuelAlert.main` (workers.py lines
184-200): the non-empty guard, `json.loads` outside the `try`, and the
`except KeyError: pass` handler around the snapshot check. -/
def fuelLineStep (jf : ℚ) (alertFlag hold : Bool) (line : RawLine) :
    Except PyErr (Bool × Bool) :=
  match line with
  | .empty => .ok (hold, false)
  | .malformed => .error .jsonDecodeError
  | .ok v =>
    match fuelInner jf alertFlag hold v with
    | .error (.keyError _) => .ok (hold, false)
    | r => r

/-- The tailing loop of `FuelAlert.main` over a finite prefix of lines;
returns the final `hold` flag and the number of alerts fired. The armed
flag is held fixed across the prefix. -/
def fuelMainLoop (jf : ℚ) (alertFlag : Bool) (hold : Bool) :
    List RawLine → Except PyErr (Bool × ℕ)
  | [] => .ok (hold, 0)
  | line :: rest =>
    match fuelLineStep jf alertFlag hold line with
    | .error e => .error e
    | .ok (h2, fired) =>
      match fuelMainLoop jf alertFlag h2 rest with
      | .error e => .error e
      | .ok (hF, cnt) => .ok (hF, (if fired then 1 else 0) + cnt)

/-- A well-formed status snapshot carrying main-tank fuel and the status
bitmask. -/
def mkStatusSnapshot (fuel : ℚ) (flags : ℕ) : JVal :=
  .obj [("Fuel", .obj [("FuelMain", .num fuel)]), ("Flags", .num (flags : ℚ))]

/-! The Spansh re-poll backoff (workers.py lines 257-263). -/

/-- The delay slept before the `n`-th re-poll of a queued job:
`min(ceil(ceil((sleep_base / 10) ** 2) / 1.9), 30)` with
`sleep_base = 1 + 5 * n` from `itertools.count(1, 5)`. -/
def spanshDelay (n : ℕ) : ℤ :=
  min ⌈((⌈(((1 : ℚ) + 5 * n) / 10) ^ 2⌉ : ℚ) / 1.9)⌉ 30

/-! Construction of the route tracker (workers.py lines 26-33). -/

/-- The initial `list_index` chosen by `AhkWorker.__init__`: a positive
saved index is kept; otherwise 1 unless the route has exactly one entry. -/
def initListIndex (start_index : ℤ) (route_length : ℕ) : ℤ :=
  if start_index > 0 then start_index
  else if route_length ≠ 1 then 1
  else 0

/-! The transport error surfacing path: `json_from_network_req`
(utils/network.py lines 46-59) and the error arms of
`_spansh_job_callback` (route_plots.py lines 273-282). -/

/-- The body bytes of a network reply, as seen by `json.loads`. -/
inductive ReplyBody
  | empty
  | malformed
  | json (v : JVal)

/-- A finished `QNetworkReply`: whether `reply.error()` reports a failure,
the Qt `error_string`, and the body. -/
structure Reply where
  failed : Bool
  error_string : String
  body : ReplyBody

/-- An exception escaping `json_from_network_req`: the `NetworkError` of
utils/network.py lines 21-27, or any other Python exception (caught by the
callback's generic handler). -/
inductive NetErr
  | networkError (qt_error : String) (spansh_error : Option JVal)
  | pyError (e : PyErr)

/-- `json_from_network_req` (utils/network.py lines 46-59): on success
decode the body; on a failed request read the body, extract
`json.loads(text_response)["error"]` when the body is non-empty, and raise
`NetworkError` with the Qt message and the extracted service error. -/
def json_from_network_req (reply : Reply) : Except NetErr JVal :=
  if reply.failed = false then
    match reply.body with
    | .json v => .ok v
    | _ => .error (.pyError .jsonDecodeError)
  else
    match reply.body with
    | .empty => .error (.networkError reply.error_string none)
    | .malformed => .error (.pyError .jsonDecodeError)
    | .json v =>
      match v with
      | .obj fields =>
        match jLookup fields "error" with
        | some m => .error (.networkError reply.error_string (some m))
        | none => .error (.pyError (.keyError "error"))
      | _ => .error (.pyError .typeError)

/-- A fixed rendering of a Python exception, modelling `str(e)`. The exact
text is immaterial to the claims. -/
def strOfPyErr : PyErr → String
  | .jsonDecodeError => "JSONDecodeError"
  | .keyError k => "KeyError: " ++ k
  | .indexError => "IndexError: string index out of range"
  | .typeError => "TypeError"
  | .valueError => "ValueError"
  | .attributeError => "AttributeError"

/-- Rendering of a JSON value inside an f-string, modelling `f"{v}"`; the
service error is a string in practice. -/
def strOfJVal : JVal → String
  | .str s => s
  | .num q => toString q
  | .obj _ => "dict"

/-- The error text surfaced by the `except` arms of `_spansh_job_callback`
(route_plots.py lines 273-282): the Spansh service message when present,
the Qt transport message as fallback, `str(e)` for other exceptions. -/
def surfacedErrorMessage : NetErr → String
  | .networkError _ (some m) => "Received error from Spansh: " ++ strOfJVal m
  | .networkError msg none => msg
  | .pyError e => strOfPyErr e

/-- Whether a surfaced error is the bare generic transport message (the
`error_callback(e.error_message)` arm, route_plots.py lines 277-279). -/
def NetErr.isGenericTransport : NetErr → Bool
  | .networkError _ none => true
  | _ => false

/-- The structured service error message carried by a reply body, as the
spec describes it: the `"error"` member of a JSON-object body. -/
def spanshServiceError (reply : Reply) : Option JVal :=
  match reply.body with
  | .json (.obj fields) => jLookup fields "error"
  | _ => none

/-! Supporting lemmas. -/

/-- The encode/decode round trip of `ExactPlotRow`: decoding returns the
`refuel` flag in the `neutron_star` position, because `to_csv` writes
`refuel` into both flag columns. -/
lemma exact_row_roundtrip (r : ExactPlotRow) :
    ExactPlotRow.from_csv_row (ExactPlotRow.to_csv r) =
      .ok ⟨r.system, round2 r.dist, round2 r.dist_rem, r.refuel, r.refuel⟩ := by
  rcases r with ⟨s, d1, d2, rf, ns⟩
  cases rf <;> rfl

/-- The encode/decode round trip of `NeutronPlotRow` preserves every field
up to the declared two-decimal rounding of the distances. -/
lemma neutron_row_roundtrip (r : NeutronPlotRow) :
    NeutronPlotRow.from_csv_row (NeutronPlotRow.to_csv r) =
      .ok ⟨r.system, round2 r.dist_to_arrival, round2 r.dist_rem, r.jumps⟩ := by
  rcases r with ⟨s, d1, d2, j⟩
  rfl

lemma countRouteFinished_append (l₁ l₂ : List AhkSignal) :
    countRouteFinished (l₁ ++ l₂) = countRouteFinished l₁ + countRouteFinished l₂ := by
  induction l₁ with
  | nil => simp [countRouteFinished]
  | cons a rest ih =>
    cases a with
    | sys_signal i => simp [countRouteFinished, ih]
    | route_finished_signal =>
      simp [countRouteFinished, ih]
      omega
    | game_shut_signal i => simp [countRouteFinished, ih]

lemma countRouteFinished_eq_zero_iff (l : List AhkSignal) :
    countRouteFinished l = 0 ↔ AhkSignal.route_finished_signal ∉ l := by
  induction l with
  | nil => simp [countRouteFinished]
  | cons a rest ih => cases a <;> simp [countRouteFinished, ih]

/-- Per-line emission bound for the route-progress consumer: one processed
line emits at most one route-complete notification, and none at all unless
it also breaks the loop. -/
lemma ahkLineStep_emissions (systems : List String) (idx : ℕ) (line : RawLine)
    (out : ℕ × List AhkSignal × Bool) (h : ahkLineStep systems idx line = .ok out) :
    countRouteFinished out.2.1 ≤ 1 ∧
    (out.2.2 = false → countRouteFinished out.2.1 = 0) := by
  unfold ahkLineStep at h
  repeat' split at h
  all_goals first
    | (injection h with h; subst h; simp [countRouteFinished])
    | simp_all [countRouteFinished]

/-- Reduction of the snapshot check on a well-formed status snapshot: the
field extraction succeeds and the check becomes the threshold comparison,
the `hold` gate, and the two negative-index bit reads. -/
lemma fuelInner_snapshot (jf fuel : ℚ) (flags : ℕ) (armed hold : Bool) :
    fuelInner jf armed hold (mkStatusSnapshot fuel flags) =
      if fuel < jf then
        if hold then .ok (hold, false)
        else
          match pyNegIndex (pyBinNat flags) 19 with
          | .error e => .error e
          | .ok c18 =>
            if c18 = '1' then
              match pyNegIndex (pyBinNat flags) 5 with
              | .error e => .error e
              | .ok c4 =>
                if c4 = '1' then
                  if armed then .ok (true, true) else .ok (hold, false)
                else .ok (hold, false)
            else .ok (hold, false)
      else if jf < fuel then .ok (false, false)
      else .ok (hold, false) := by
  have hden : ((flags : ℚ)).den = 1 := Rat.den_natCast flags
  have hnum : ((flags : ℚ)).num = (flags : ℤ) := Rat.num_natCast flags
  have hbin : pyBinInt ((flags : ℚ)).num = pyBinNat flags := by
    rw [hnum]
    unfold pyBinInt
    rw [if_neg (by omega), Int.natAbs_ofNat]
  unfold fuelInner mkStatusSnapshot
  simp only [getItem, jLookup, if_pos, asNum, asIntForBinFormat, hden, hbin,
    reduceIte, String.reduceEq]

/-- Exhaustive behaviour of the fuel-status consumer on one well-formed
snapshot: the firing case, the out-of-range negative index case, the
reset case, and the no-op case. -/
lemma fuel_step_cases (jf fuel : ℚ) (flags : ℕ) (armed hold : Bool) :
    (fuel < jf ∧ hold = false ∧ flags.testBit 18 = true ∧ flags.testBit 4 = true ∧
      armed = true ∧
      fuelLineStep jf armed hold (.ok (mkStatusSnapshot fuel flags)) = .ok (true, true))
    ∨ (fuel < jf ∧ hold = false ∧ flags < 2 ^ 18 ∧
      fuelLineStep jf armed hold (.ok (mkStatusSnapshot fuel flags)) = .error .indexError)
    ∨ (jf < fuel ∧
      fuelLineStep jf armed hold (.ok (mkStatusSnapshot fuel flags)) = .ok (false, false))
    ∨ (¬(fuel < jf ∧ hold = false ∧ flags.testBit 18 = true ∧ flags.testBit 4 = true ∧
        armed = true) ∧ ¬(fuel < jf ∧ hold = false ∧ flags < 2 ^ 18) ∧ ¬(jf < fuel) ∧
      fuelLineStep jf armed hold (.ok (mkStatusSnapshot fuel flags)) = .ok (hold, false)) := by
  by_cases h1 : fuel < jf
  · cases hold with
    | true =>
      right; right; right
      refine ⟨by simp, by simp, by exact fun hc => absurd hc (not_lt_of_lt h1), ?_⟩
      simp [fuelLineStep, fuelInner_snapshot, h1]
    | false =>
      by_cases h3 : 2 ^ 18 ≤ flags
      · have h19 := pyNegIndex_pyBinNat_ok flags 18 h3
        by_cases h4 : flags.testBit 18 = true
        · have h5le : 2 ^ 4 ≤ flags := le_trans (by norm_num) h3
          have h5 := pyNegIndex_pyBinNat_ok flags 4 h5le
          by_cases h6 : flags.testBit 4 = true
          · cases armed with
            | true =>
              left
              refine ⟨h1, rfl, h4, h6, rfl, ?_⟩
              simp [fuelLineStep, fuelInner_snapshot, h1, h19, h4, h5, h6]
            | false =>
              right; right; right
              refine ⟨by simp, by omega, by exact fun hc => absurd hc (not_lt_of_lt h1), ?_⟩
              simp [fuelLineStep, fuelInner_snapshot, h1, h19, h4, h5, h6]
          · right; right; right
            refine ⟨by simp [h6], by omega, by exact fun hc => absurd hc (not_lt_of_lt h1), ?_⟩
            simp only [Bool.not_eq_true] at h6
            simp [fuelLineStep, fuelInner_snapshot, h1, h19, h4, h5, h6]
        · right; right; right
          refine ⟨by simp [h4], by omega, by exact fun hc => absurd hc (not_lt_of_lt h1), ?_⟩
          simp only [Bool.not_eq_true] at h4
          simp [fuelLineStep, fuelInner_snapshot, h1, h19, h4]
      · have h19 := pyNegIndex_pyBinNat_err flags 18 (by omega) (by norm_num)
        right; left
        refine ⟨h1, rfl, by omega, ?_⟩
        simp [fuelLineStep, fuelInner_snapshot, h1, h19]
  · by_cases h8 : jf < fuel
    · right; right; left
      refine ⟨h8, ?_⟩
      simp [fuelLineStep, fuelInner_snapshot, h1, h8]
    · right; right; right
      refine ⟨by simp [h1], by simp [h1], h8, ?_⟩
      simp [fuelLineStep, fuelInner_snapshot, h1, h8]

lemma ok_pair_inj {a b c d : Bool}
    (h : (Except.ok (a, b) : Except PyErr (Bool × Bool)) = .ok (c, d)) :
    a = c ∧ b = d := by
  injection h with h
  exact ⟨congrArg Prod.fst h, congrArg Prod.snd h⟩

/-! Claim theorems. -/

/-- C1: the claim says a jump matching a waypoint at or after the current
index sets the new index to the position of the earliest matching
occurrence at or after the current index, plus one. On the route
`["sol", "alpha centauri", "sol", "beta"]` with current index 2, the jump
`"Sol"` matches at or after the index (at absolute position 2, so the
claim requires the new index 3), yet the code sets the index to 1:
`list.index` searches from position 0 and finds the earlier duplicate. -/
theorem fsd_jump_uses_global_index :
    fsdJumpStep ["sol", "alpha centauri", "sol", "beta"] 2 "Sol" = 1 ∧
    casefold "Sol" ∈ (["sol", "alpha centauri", "sol", "beta"].drop 2) ∧
    (1 : ℕ) ≠ 2 + 0 + 1 := by
  refine ⟨rfl, by decide, by decide⟩

/-- C2: the claim says a matching jump strictly increases the current
index and no jump decreases it. At the same failing input as C1 the index
drops from 2 to 1 although the jumped-to system matches a waypoint at or
after the current index. -/
theorem fsd_jump_can_decrease_index :
    fsdJumpStep ["sol", "alpha centauri", "sol", "beta"] 2 "Sol" < 2 ∧
    casefold "Sol" ∈ (["sol", "alpha centauri", "sol", "beta"].drop 2) := by
  refine ⟨by decide, by decide⟩

/-- C3: the claim says encoding a waypoint of either shape and decoding it
back preserves every field the shape defines (distances at two-decimal
precision). For the exact-plot shape the `neutron_star` flag is lost:
encoding `⟨"Sol", 1, 2, refuel := false, neutron_star := true⟩` and
decoding yields `neutron_star = false`, because `to_csv` writes the
`refuel` flag into both flag columns. -/
theorem exact_row_roundtrip_drops_neutron_star :
    ExactPlotRow.from_csv_row (ExactPlotRow.to_csv ⟨"Sol", 1, 2, false, true⟩) =
      .ok ⟨"Sol", round2 1, round2 2, false, false⟩ ∧
    round2 1 = 1 ∧ round2 2 = 2 ∧
    (⟨"Sol", 1, 2, false, true⟩ : ExactPlotRow).neutron_star = true := by
  refine ⟨rfl, by norm_num [round2], by norm_num [round2], rfl⟩

/-- C4 counterexample: a line that is not valid JSON raises
`json.JSONDecodeError` out of both the route-progress consumer and the
fuel-status consumer, contradicting the claim that decoding failures never
raise out of a consumer. -/
theorem malformed_line_raises_out_of_consumers :
    ahkMainLoop ["sol"] 0 [.malformed] = .error .jsonDecodeError ∧
    fuelMainLoop 2 true false [.malformed] = .error .jsonDecodeError := ⟨rfl, rfl⟩

/-- C4 (amended): a line that is not valid structured data raises out of
both consumers; in the fuel-status consumer a recognized snapshot with
missing or malformed fields inside the parsed value is ignored for that
cycle (`KeyError` is caught) and a `KeyError` never escapes, while in the
route-progress consumer a decoded event with a missing field raises. -/
theorem decode_failure_behaviour :
    (∀ systems idx, ahkLineStep systems idx .malformed = .error .jsonDecodeError)
    ∧ (∀ jf armed hold, fuelLineStep jf armed hold .malformed = .error .jsonDecodeError)
    ∧ (∀ jf armed hold v k, fuelInner jf armed hold v = .error (.keyError k) →
        fuelLineStep jf armed hold (.ok v) = .ok (hold, false))
    ∧ (∀ jf armed hold line e k, fuelLineStep jf armed hold line = .error e →
        e ≠ .keyError k)
    ∧ (∀ systems idx fields, jLookup fields "event" = none →
        ahkLineStep systems idx (.ok (.obj fields)) = .error (.keyError "event")) := by
  refine ⟨fun _ _ => rfl, fun _ _ _ => rfl, ?_, ?_, ?_⟩
  · intro jf armed hold v k h
    simp [fuelLineStep, h]
  · intro jf armed hold line e k hres
    cases line with
    | empty => simp [fuelLineStep] at hres
    | malformed =>
      simp only [fuelLineStep] at hres
      injection hres with h
      subst h
      simp
    | ok v =>
      simp only [fuelLineStep] at hres
      rcases hInner : fuelInner jf armed hold v with e' | v'
      · rw [hInner] at hres
        cases e' <;> simp_all <;> (subst hres; simp)
      · rw [hInner] at hres
        simp at hres
  · intro systems idx fields h
    simp [ahkLineStep, jsonLoads, getItem, h]

/-- Witness for C4: the amended behaviour at concrete inputs. -/
theorem decode_failure_behaviour_witness :
    ahkLineStep ["sol"] 1 .malformed = .error .jsonDecodeError ∧
    fuelLineStep 3 true false .malformed = .error .jsonDecodeError ∧
    fuelLineStep 3 true false (.ok (.obj [])) = .ok (false, false) ∧
    ahkLineStep ["sol"] 1 (.ok (.obj [])) = .error (.keyError "event") :=
  ⟨decode_failure_behaviour.1 ["sol"] 1,
   decode_failure_behaviour.2.1 3 true false,
   decode_failure_behaviour.2.2.1 3 true false (.obj []) "Fuel" rfl,
   decode_failure_behaviour.2.2.2.2 ["sol"] 1 [] rfl⟩

/-- C5 counterexample: in the snapshot sequence below, the second snapshot
satisfies the claimed firing condition (fuel 1 below threshold 2, both
status bits set, held false, armed true), so the claim requires exactly
one alert; but the first snapshot (fuel below threshold, flags 16, whose
binary string is shorter than 19 characters) raises an uncaught
`IndexError` and the consumer halts before any alert fires. -/
theorem fuel_alert_halts_on_short_flag_string :
    fuelMainLoop 2 true false
      [.ok (mkStatusSnapshot 1 16), .ok (mkStatusSnapshot 1 (2 ^ 18 + 2 ^ 4))] =
      .error .indexError ∧
    (1 : ℚ) < 2 ∧ Nat.testBit (2 ^ 18 + 2 ^ 4) 18 = true ∧
    Nat.testBit (2 ^ 18 + 2 ^ 4) 4 = true := by
  refine ⟨rfl, by decide, by decide, by decide⟩

/-- C5 (amended): for every snapshot the fuel-status consumer processes
without error, the alert fires exactly when main-tank fuel is strictly
below `max_fuel * modifier / 100`, bits 18 (FSD cooldown) and 4
(supercruise) of the status mask are set, held is false, and armed is
true; firing sets held, and fuel strictly above the threshold resets held.
A below-threshold snapshot with held false and a mask below `2 ^ 18`
instead raises an uncaught `IndexError` that halts the consumer. -/
theorem fuel_alert_step_characterization (max_fuel modifier fuel : ℚ) (flags : ℕ)
    (armed hold : Bool) :
    ((∃ hold2, fuelLineStep (jump_fuel max_fuel modifier) armed hold
        (.ok (mkStatusSnapshot fuel flags)) = .ok (hold2, true)) ↔
      (fuel < jump_fuel max_fuel modifier ∧ hold = false ∧
        flags.testBit 18 = true ∧ flags.testBit 4 = true ∧ armed = true))
    ∧ (∀ hold2 fired, fuelLineStep (jump_fuel max_fuel modifier) armed hold
        (.ok (mkStatusSnapshot fuel flags)) = .ok (hold2, fired) →
        (fired = true → hold2 = true) ∧
        (jump_fuel max_fuel modifier < fuel → hold2 = false))
    ∧ (fuelLineStep (jump_fuel max_fuel modifier) armed hold
        (.ok (mkStatusSnapshot fuel flags)) = .error .indexError ↔
      (fuel < jump_fuel max_fuel modifier ∧ hold = false ∧ flags < 2 ^ 18)) := by
  rcases fuel_step_cases (jump_fuel max_fuel modifier) fuel flags armed hold with
    ⟨hf, hh, h18, h4, ha, hstep⟩ | ⟨hf, hh, hlt, hstep⟩ | ⟨hf, hstep⟩ |
    ⟨hnc, hne, hnf, hstep⟩
  · refine ⟨⟨fun _ => ⟨hf, hh, h18, h4, ha⟩, fun _ => ⟨true, hstep⟩⟩, ?_, ?_⟩
    · intro hold2 fired hok
      obtain ⟨h7, h8⟩ := ok_pair_inj (hstep.symm.trans hok)
      exact ⟨fun _ => h7.symm, fun hlt2 => (not_lt_of_lt hf hlt2).elim⟩
    · constructor
      · intro herr
        rw [hstep] at herr
        simp at herr
      · rintro ⟨-, -, hlt2⟩
        have := Nat.testBit_implies_ge h18
        omega
  · refine ⟨?_, ?_, ⟨fun _ => ⟨hf, hh, hlt⟩, fun _ => hstep⟩⟩
    · constructor
      · rintro ⟨hold2, hok⟩
        rw [hstep] at hok
        simp at hok
      · rintro ⟨-, -, h18', -, -⟩
        have := Nat.testBit_implies_ge h18'
        omega
    · intro hold2 fired hok
      rw [hstep] at hok
      simp at hok
  · refine ⟨?_, ?_, ?_⟩
    · constructor
      · rintro ⟨hold2, hok⟩
        obtain ⟨h7, h8⟩ := ok_pair_inj (hstep.symm.trans hok)
        exact absurd h8 (by decide)
      · rintro ⟨hf2, -⟩
        exact (not_lt_of_lt hf hf2).elim
    · intro hold2 fired hok
      obtain ⟨h7, h8⟩ := ok_pair_inj (hstep.symm.trans hok)
      refine ⟨fun hfi => absurd (h8.trans hfi) (by decide), fun _ => h7.symm⟩
    · constructor
      · intro herr
        rw [hstep] at herr
        simp at herr
      · rintro ⟨hf2, -, -⟩
        exact (not_lt_of_lt hf hf2).elim
  · refine ⟨?_, ?_, ?_⟩
    · constructor
      · rintro ⟨hold2, hok⟩
        obtain ⟨h7, h8⟩ := ok_pair_inj (hstep.symm.trans hok)
        exact absurd h8 (by decide)
      · intro hc
        exact absurd hc hnc
    · intro hold2 fired hok
      obtain ⟨h7, h8⟩ := ok_pair_inj (hstep.symm.trans hok)
      refine ⟨fun hfi => absurd (h8.trans hfi) (by decide), fun hlt2 => absurd hlt2 hnf⟩
    · constructor
      · intro herr
        rw [hstep] at herr
        simp at herr
      · intro hc
        exact absurd hc hne

/-- Witness for C5: with capacity 32 and modifier 25 the threshold is 8;
a snapshot with fuel 4 and both status bits set fires while armed and not
held. -/
theorem fuel_alert_step_characterization_witness :
    ∃ hold2, fuelLineStep (jump_fuel 32 25) true false
      (.ok (mkStatusSnapshot 4 (2 ^ 18 + 2 ^ 4))) = .ok (hold2, true) :=
  (fuel_alert_step_characterization 32 25 4 (2 ^ 18 + 2 ^ 4) true false).1.mpr
    ⟨by norm_num [jump_fuel], rfl, by decide, by decide, rfl⟩

/-- C6: the re-poll delay sequence for consecutive queued responses is
non-decreasing, every delay is at most the 30-second ceiling, and the
first delay (1 second) is below 5 seconds. -/
theorem spansh_backoff_monotone_bounded (n : ℕ) :
    spanshDelay n ≤ spanshDelay (n + 1) ∧ spanshDelay n ≤ 30 ∧ spanshDelay 0 < 5 := by
  refine ⟨?_, min_le_right _ _, ?_⟩
  · have hb0 : (0 : ℚ) ≤ ((1 : ℚ) + 5 * n) / 10 := by positivity
    have hb : ((1 : ℚ) + 5 * n) / 10 ≤ ((1 : ℚ) + 5 * ((n : ℚ) + 1)) / 10 := by
      have h : ((1 : ℚ) + 5 * n) ≤ ((1 : ℚ) + 5 * ((n : ℚ) + 1)) := by linarith
      exact (div_le_div_iff_of_pos_right (by norm_num)).mpr h
    have hsq := pow_le_pow_left₀ hb0 hb 2
    have hc1 := Int.ceil_le_ceil hsq
    have hc1q : ((⌈(((1 : ℚ) + 5 * n) / 10) ^ 2⌉ : ℤ) : ℚ) ≤
        ((⌈(((1 : ℚ) + 5 * ((n : ℚ) + 1)) / 10) ^ 2⌉ : ℤ) : ℚ) := by
      exact_mod_cast hc1
    have hdiv := (div_le_div_iff_of_pos_right (show (0 : ℚ) < 1.9 by norm_num)).mpr hc1q
    have hc2 := Int.ceil_le_ceil hdiv
    have hcast : ((1 : ℚ) + 5 * ((n : ℚ) + 1)) = ((1 : ℚ) + 5 * ((n + 1 : ℕ) : ℚ)) := by
      push_cast
      ring
    unfold spanshDelay
    rw [← hcast]
    exact min_le_min hc2 (le_refl 30)
  · have h1 : (((1 : ℚ) + 5 * (0 : ℕ)) / 10) ^ 2 = 1 / 100 := by norm_num
    have h2 : (⌈(1 / 100 : ℚ)⌉ : ℤ) = 1 := by
      rw [Int.ceil_eq_iff]
      norm_num
    have h3 : (⌈((1 : ℤ) : ℚ) / 1.9⌉ : ℤ) = 1 := by
      rw [Int.ceil_eq_iff]
      norm_num
    rw [spanshDelay, h1, h2, h3]
    decide

/-- C7: the jump index transition depends only on the casefolded system
name, so two case-variants of the same name produce identical transitions;
and the row comparison against a string compares lowercased system names,
so it is likewise case-insensitive in its argument. -/
theorem jump_matching_case_insensitive :
    (∀ systems idx s t, casefold s = casefold t →
      fsdJumpStep systems idx s = fsdJumpStep systems idx t)
    ∧ (∀ (r : ExactPlotRow) s t, pyLower s = pyLower t →
      ExactPlotRow.eq_str r s = ExactPlotRow.eq_str r t) := by
  constructor
  · intro systems idx s t h
    simp only [fsdJumpStep, h]
  · intro r s t h
    simp only [ExactPlotRow.eq_str, h]

/-- Witness for C7 at `"sol"` and `"SOL"` against a waypoint `"Sol"`. -/
theorem jump_matching_case_insensitive_witness :
    fsdJumpStep ["sol"] 0 "sol" = fsdJumpStep ["sol"] 0 "SOL" ∧
    ExactPlotRow.eq_str ⟨"Sol", 1, 2, false, true⟩ "sol" =
      ExactPlotRow.eq_str ⟨"Sol", 1, 2, false, true⟩ "SOL" :=
  ⟨jump_matching_case_insensitive.1 ["sol"] 0 "sol" "SOL" (by decide),
   jump_matching_case_insensitive.2 ⟨"Sol", 1, 2, false, true⟩ "sol" "SOL" (by decide)⟩

/-- The route-progress loop emits the route-complete notification at most
once, and once it appears the loop has stopped: appending further lines
changes nothing. -/
lemma ahkMainLoop_routeFinished_aux :
    ∀ (lines : List RawLine) (systems : List String) (idx : ℕ) (res : ℕ × List AhkSignal),
      ahkMainLoop systems idx lines = .ok res →
      countRouteFinished res.2 ≤ 1 ∧
      (AhkSignal.route_finished_signal ∈ res.2 →
        ∀ extra, ahkMainLoop systems idx (lines ++ extra) = .ok res) := by
  intro lines
  induction lines with
  | nil =>
    intro systems idx res h
    simp only [ahkMainLoop] at h
    injection h with h
    subst h
    exact ⟨by simp [countRouteFinished], by intro hmem; simp at hmem⟩
  | cons line rest ih =>
    intro systems idx res h
    simp only [ahkMainLoop] at h
    rcases hstep : ahkLineStep systems idx line with e | ⟨i, sigs, brk⟩
    · rw [hstep] at h
      simp at h
    · rw [hstep] at h
      cases brk with
      | true =>
        simp only [if_true] at h
        injection h with h
        subst h
        refine ⟨(ahkLineStep_emissions _ _ _ _ hstep).1, ?_⟩
        intro _ extra
        simp only [List.cons_append, ahkMainLoop]
        rw [hstep]
        simp
      | false =>
        simp only [Bool.false_eq_true, if_false] at h
        rcases hrest : ahkMainLoop systems i rest with e | ⟨iF, more⟩
        · rw [hrest] at h
          simp at h
        · rw [hrest] at h
          injection h with h
          subst h
          obtain ⟨hcount, hzero⟩ := ahkLineStep_emissions _ _ _ _ hstep
          have hz : countRouteFinished sigs = 0 := hzero rfl
          obtain ⟨ihc, ihm⟩ := ih systems i (iF, more) hrest
          constructor
          · simpa [countRouteFinished_append, hz] using ihc
          · intro hmem extra
            have hnot : AhkSignal.route_finished_signal ∉ sigs :=
              (countRouteFinished_eq_zero_iff sigs).mp hz
            have hmem2 : AhkSignal.route_finished_signal ∈ more := by
              rcases List.mem_append.mp hmem with hm | hm
              · exact absurd hm hnot
              · exact hm
            have hext := ihm hmem2 extra
            simp only [List.cons_append, ahkMainLoop]
            rw [hstep]
            simp only [Bool.false_eq_true, if_false, List.append_eq]
            rw [hext]

/-- C8: over any processed line prefix the route-complete notification is
emitted at most once; once it is emitted, every later line is a no-op
(the loop broke, so appending lines changes neither state nor emissions);
and a jump that moves the index to the route length emits exactly the one
route-complete notification and stops the loop. -/
theorem route_complete_emitted_once (systems : List String) (idx : ℕ)
    (lines : List RawLine) (res : ℕ × List AhkSignal)
    (h : ahkMainLoop systems idx lines = .ok res) :
    countRouteFinished res.2 ≤ 1
    ∧ (AhkSignal.route_finished_signal ∈ res.2 →
        ∀ extra, ahkMainLoop systems idx (lines ++ extra) = .ok res)
    ∧ (∀ name, casefold name ∈ systems.drop idx →
        systems.indexOf (casefold name) + 1 = systems.length →
        ahkLineStep systems idx (.ok (mkJump name)) =
          .ok (systems.length, [.route_finished_signal], true)) := by
  obtain ⟨h1, h2⟩ := ahkMainLoop_routeFinished_aux lines systems idx res h
  refine ⟨h1, h2, ?_⟩
  intro name hmem hlen
  simp [ahkLineStep, jsonLoads, mkJump, getItem, jLookup, pyEqStr, asStr, hmem, hlen]

/-- Witness for C8: a route of two systems, current index 1; the jump to
`"Sol"` completes the route, and a further jump line is a no-op. -/
theorem route_complete_emitted_once_witness :
    ahkMainLoop ["alpha", "sol"] 1 ([.ok (mkJump "Sol")] ++ [.ok (mkJump "Alpha")]) =
      .ok (2, [.route_finished_signal]) :=
  (route_complete_emitted_once ["alpha", "sol"] 1 [.ok (mkJump "Sol")]
    (2, [.route_finished_signal]) rfl).2.1 (by decide) [.ok (mkJump "Alpha")]

/-- C9: for a failed request, when the body carries a structured service
error message the surfaced text is the service message (it contains it as
a suffix), and the bare generic transport message is surfaced only when no
structured service error is present (in which case it is exactly the Qt
error string). -/
theorem transport_error_surfacing (reply : Reply) (hfail : reply.failed = true) :
    ∃ err, json_from_network_req reply = .error err ∧
      (∀ m, spanshServiceError reply = some m →
        surfacedErrorMessage err = "Received error from Spansh: " ++ strOfJVal m ∧
        ∃ pre, surfacedErrorMessage err = pre ++ strOfJVal m)
      ∧ (err.isGenericTransport = true →
          spanshServiceError reply = none ∧
          surfacedErrorMessage err = reply.error_string) := by
  rcases reply with ⟨failed, es, body⟩
  simp only at hfail
  subst hfail
  cases body with
  | empty =>
    refine ⟨.networkError es none, ?_, ?_, ?_⟩
    · simp [json_from_network_req]
    · intro m hm
      simp [spanshServiceError] at hm
    · intro _
      exact ⟨by simp [spanshServiceError], by simp [surfacedErrorMessage]⟩
  | malformed =>
    refine ⟨.pyError .jsonDecodeError, ?_, ?_, ?_⟩
    · simp [json_from_network_req]
    · intro m hm
      simp [spanshServiceError] at hm
    · intro hg
      simp [NetErr.isGenericTransport] at hg
  | json v =>
    cases v with
    | str s =>
      refine ⟨.pyError .typeError, ?_, ?_, ?_⟩
      · simp [json_from_network_req]
      · intro m hm
        simp [spanshServiceError] at hm
      · intro hg
        simp [NetErr.isGenericTransport] at hg
    | num q =>
      refine ⟨.pyError .typeError, ?_, ?_, ?_⟩
      · simp [json_from_network_req]
      · intro m hm
        simp [spanshServiceError] at hm
      · intro hg
        simp [NetErr.isGenericTransport] at hg
    | obj fields =>
      rcases hlk : jLookup fields "error" with _ | m
      · refine ⟨.pyError (.keyError "error"), ?_, ?_, ?_⟩
        · simp [json_from_network_req, hlk]
        · intro m hm
          simp [spanshServiceError, hlk] at hm
        · intro hg
          simp [NetErr.isGenericTransport] at hg
      · refine ⟨.networkError es (some m), ?_, ?_, ?_⟩
        · simp [json_from_network_req, hlk]
        · intro m2 hm2
          simp only [spanshServiceError, hlk, Option.some.injEq] at hm2
          subst hm2
          exact ⟨rfl, ⟨"Received error from Spansh: ", rfl⟩⟩
        · intro hg
          simp [NetErr.isGenericTransport] at hg

/-- Witness for C9 at a failed reply whose body carries the service error
`"no route found"`. -/
theorem transport_error_surfacing_witness :
    ∃ err, json_from_network_req
        ⟨true, "transport failure", .json (.obj [("error", .str "no route found")])⟩ =
        .error err ∧
      (∀ m, spanshServiceError
          ⟨true, "transport failure", .json (.obj [("error", .str "no route found")])⟩ =
          some m →
        surfacedErrorMessage err = "Received error from Spansh: " ++ strOfJVal m ∧
        ∃ pre, surfacedErrorMessage err = pre ++ strOfJVal m)
      ∧ (err.isGenericTransport = true →
          spanshServiceError
            ⟨true, "transport failure", .json (.obj [("error", .str "no route found")])⟩ =
            none ∧
          surfacedErrorMessage err =
            (⟨true, "transport failure",
              .json (.obj [("error", .str "no route found")])⟩ : Reply).error_string) :=
  transport_error_surfacing _ rfl

/-- C10: with a non-positive saved start index the tracker starts at index
1 whenever the route length differs from 1 and at index 0 for a
single-waypoint route; a positive saved start index is used unchanged. -/
theorem init_list_index_spec (start_index : ℤ) (route_length : ℕ) :
    (start_index ≤ 0 →
      initListIndex start_index route_length = if route_length = 1 then 0 else 1)
    ∧ (0 < start_index → initListIndex start_index route_length = start_index) := by
  constructor
  · intro h
    unfold initListIndex
    rw [if_neg (by omega)]
    by_cases hr : route_length = 1
    · simp [hr]
    · simp [hr]
  · intro h
    unfold initListIndex
    rw [if_pos (by omega)]

/-- Witness for C10 at start index 0 with route lengths 5 and 1, and at
start index 7. -/
theorem init_list_index_spec_witness :
    initListIndex 0 5 = 1 ∧ initListIndex 0 1 = 0 ∧ initListIndex 7 5 = 7 := by
  refine ⟨?_, ?_, ?_⟩
  · have h := (init_list_index_spec 0 5).1 (by decide)
    simpa using h
  · have h := (init_list_index_spec 0 1).1 (by decide)
    simpa using h
  · exact (init_list_index_spec 7 5).2 (by decide)

end AutoNeutron
